import Mathlib

/-!
Verification of the optimistic-update and background-reconciliation engine of
the assignment-frontend repository, against its natural-language specification.

The development shallowly embeds the relevant source functions:

* `BusModel` — the event bus of `src/src/hooks/useRealtimeSync.ts` (`emit`,
  listener registry keyed by event-type string, wildcard `*` subscription,
  per-listener try/catch).
* `TrackerModel` — the optimistic update tracker of the same file
  (`addOptimisticUpdate`, `confirmOptimisticUpdate`, `revertOptimisticUpdate`,
  the 10-second expiry callback), as a state machine whose state records the
  pending map, the scheduled expiry log, the events handed to the bus, the
  compensation invocations, and the exceptions that escaped to the caller.
* `SyncModel` — the background reconciliation engine (`checkForChanges`,
  `resolveConflicts`, `performSync`) of the BackgroundSyncContext source file.
* `AppContextModel` — `getEngineerWorkload` and the optimistic-add flows of
  the AppContext source file, including the compensating closures they
  register.

Effectful pieces are embedded explicitly: listener bodies and compensating
actions are modelled by their observable behaviour (return normally or throw),
`Date.now()` becomes a `now` field threaded through the state, `setTimeout`
becomes an explicit expiry log plus a separate `fire` transition, and the
network fetch of `performSync` becomes an `Except` parameter.
-/

/-- Origin of a realtime event: the `source` field of `RealtimeEvent` in the
source is the string literal `'local'` or `'server'`. -/
inductive Source where
  | localOrigin
  | serverOrigin
  deriving DecidableEq, Repr

namespace BusModel

/-- The event object built by `emit` in `useRealtimeSync.ts`: `{ type, payload,
timestamp, source }`.  Payloads are opaque to the bus; they are modelled by a
natural number. -/
structure RealtimeEvent where
  type : String
  payload : Nat
  timestamp : Nat
  source : Source
  deriving DecidableEq, Repr

/-- Observable behaviour of one registered listener on one delivered event:
it either returns normally or throws an error with a message. -/
inductive ListenerRes where
  | ok
  | throws (msg : String)
  deriving DecidableEq, Repr

/-- A registered listener, identified by a label and modelled by its
behaviour when invoked. -/
structure Listener where
  lid : Nat
  behavior : ListenerRes
  deriving DecidableEq, Repr

/-- The listener registry: the `Map<string, Set<listener>>` of the source,
as an association list from event type to the listeners in insertion order. -/
def getListeners (reg : List (String × List Listener)) (t : String) :
    List Listener :=
  match reg.find? (fun p => p.1 == t) with
  | some p => p.2
  | none => []

/-- Result of one `emit` call: which listeners were invoked (and with which
event), and which listener errors were caught and logged at the bus
boundary.  The source's `emit` returns normally in all cases, which is why
this structure has no exception channel: every listener error is consumed by
the per-listener `try { listener(event) } catch { console.error(...) }`. -/
structure EmitOutcome where
  delivered : List (Nat × RealtimeEvent)
  logged : List String
  deriving DecidableEq, Repr

/-- The `forEach` loop of `emit` over one listener set: each listener is
invoked with the event inside its own try/catch, so a throwing listener is
logged and the iteration continues with the remaining listeners. -/
def runListenerSet (ls : List Listener) (ev : RealtimeEvent) : EmitOutcome :=
  match ls with
  | [] => ⟨[], []⟩
  | l :: rest =>
    let tail := runListenerSet rest ev
    match l.behavior with
    | ListenerRes.ok => ⟨(l.lid, ev) :: tail.delivered, tail.logged⟩
    | ListenerRes.throws m => ⟨(l.lid, ev) :: tail.delivered, m :: tail.logged⟩

/-- The `emit` function of `useRealtimeSync.ts`: if broadcasting is disabled
it returns immediately; otherwise it constructs the event and dispatches it
first to the listeners of the exact type and then to the listeners of the
wildcard type `*`. -/
def busEmit (enableBroadcast : Bool) (reg : List (String × List Listener))
    (type : String) (payload : Nat) (now : Nat)
    (source : Source := Source.localOrigin) : EmitOutcome :=
  if !enableBroadcast then ⟨[], []⟩
  else
    let event : RealtimeEvent := ⟨type, payload, now, source⟩
    let typeOutcome := runListenerSet (getListeners reg type) event
    let globalOutcome := runListenerSet (getListeners reg "*") event
    ⟨typeOutcome.delivered ++ globalOutcome.delivered,
     typeOutcome.logged ++ globalOutcome.logged⟩

/-- The error message extracted from a throwing listener, if any. -/
def thrownMsg (l : Listener) : Option String :=
  match l.behavior with
  | ListenerRes.throws m => some m
  | ListenerRes.ok => none

theorem runListenerSet_eq (ls : List Listener) (ev : RealtimeEvent) :
    runListenerSet ls ev =
      ⟨ls.map (fun l => (l.lid, ev)), ls.filterMap thrownMsg⟩ := by
  induction ls with
  | nil => rfl
  | cons l rest ih =>
    cases hb : l.behavior <;>
      simp [runListenerSet, ih, thrownMsg, hb, List.filterMap_cons]

/-- C9: for every `emit(type, payload)` with broadcasting enabled (the
default configuration), every listener registered for the exact type and
every listener registered for the wildcard `*` is invoked with the event,
in registry order, regardless of whether earlier listeners threw; the
errors of throwing listeners are exactly the ones logged at the bus
boundary, and `emit` itself returns normally (the outcome has no exception
channel), so no listener error reaches the caller of `emit`. -/
theorem c9_emit_fanout_and_containment
    (reg : List (String × List Listener)) (type : String)
    (payload now : Nat) (src : Source) :
    (busEmit true reg type payload now src).delivered
        = (getListeners reg type ++ getListeners reg "*").map
            (fun l => (l.lid, (⟨type, payload, now, src⟩ : RealtimeEvent)))
      ∧ (busEmit true reg type payload now src).logged
        = (getListeners reg type ++ getListeners reg "*").filterMap thrownMsg := by
  constructor <;> simp [busEmit, runListenerSet_eq]

end BusModel

namespace TrackerModel

/-- Observable behaviour of a compensating (revert) action: it either returns
normally or throws. -/
inductive CompBehavior where
  | ok
  | throws
  deriving DecidableEq, Repr

/-- The `OptimisticUpdate` interface of `useRealtimeSync.ts`:
`{ id, type, data, timestamp, revert? }`.  The opaque `data` payload is
modelled by a natural number and the optional `revert` closure by its
observable behaviour. -/
structure OptimisticUpdate where
  id : String
  type : String
  data : Nat
  timestamp : Nat
  revert : Option CompBehavior
  deriving DecidableEq, Repr

/-- An event handed to the bus by the tracker, with its payload `{ id, data }`. -/
structure TrackerEvent where
  type : String
  pid : String
  pdata : Nat
  source : Source
  deriving DecidableEq, Repr

/-- State of the tracker: the `pendingUpdates` map (association list in JS
`Map` insertion order), the log of scheduled 10-second expiry checks
(`setTimeout` registrations, as pairs of id and absolute fire time), the
events handed to the bus, the log of compensation invocations, the ids whose
compensation threw an exception that escaped to the caller, and the current
`Date.now()` clock. -/
structure TrackerState where
  pending : List (String × OptimisticUpdate)
  timers : List (String × Nat)
  events : List TrackerEvent
  compLog : List String
  thrown : List String
  now : Nat
  deriving DecidableEq, Repr

/-- `Map.get(id)` on the pending map. -/
def mapGet (m : List (String × OptimisticUpdate)) (k : String) :
    Option OptimisticUpdate :=
  (m.find? (fun p => p.1 == k)).map (fun p => p.2)

/-- `Map.set(id, v)`: replace the entry in place when the key is present
(JS `Map` keeps the original insertion position), append otherwise. -/
def mapSet (m : List (String × OptimisticUpdate)) (k : String)
    (v : OptimisticUpdate) : List (String × OptimisticUpdate) :=
  match m with
  | [] => [(k, v)]
  | p :: rest => if p.1 == k then (k, v) :: rest else p :: mapSet rest k v

/-- `Map.delete(id)`. -/
def mapDelete (m : List (String × OptimisticUpdate)) (k : String) :
    List (String × OptimisticUpdate) :=
  m.filter (fun p => !(p.1 == k))

/-- The event list appended by one `emit` call from the tracker: `emit`
returns immediately when broadcasting is disabled, so nothing is dispatched. -/
def emitEvent (enableBroadcast : Bool) (t : String) (pid : String)
    (pdata : Nat) (src : Source) : List TrackerEvent :=
  if enableBroadcast then [⟨t, pid, pdata, src⟩] else []

/-- The fixed expiry delay of `addOptimisticUpdate` (`10000` ms in the source). -/
def OPTIMISTIC_TIMEOUT_MS : Nat := 10000

/-- `addOptimisticUpdate(id, type, data, revertFn?)`: builds the update,
stores it with `Map.set` (replacing any entry already present under that
id), emits `optimistic:<type>` with origin local, and schedules an expiry
check 10 seconds out. -/
def addOptimisticUpdate (bc : Bool) (s : TrackerState) (id type : String)
    (data : Nat) (revertFn : Option CompBehavior) : TrackerState :=
  let update : OptimisticUpdate :=
    { id := id, type := type, data := data, timestamp := s.now,
      revert := revertFn }
  { s with
      pending := mapSet s.pending id update
      events := s.events ++
        emitEvent bc ("optimistic:" ++ type) id data Source.localOrigin
      timers := s.timers ++ [(id, s.now + OPTIMISTIC_TIMEOUT_MS)] }

/-- `confirmOptimisticUpdate(id)`: when present, delete the entry and emit
`confirmed:<type>` with origin server; when absent, return unchanged. -/
def confirmOptimisticUpdate (bc : Bool) (s : TrackerState) (id : String) :
    TrackerState :=
  match mapGet s.pending id with
  | none => s
  | some u =>
    { s with
        pending := mapDelete s.pending id
        events := s.events ++
          emitEvent bc ("confirmed:" ++ u.type) id u.data Source.serverOrigin }

/-- `revertOptimisticUpdate(id)`: when present, invoke `update.revert()` if
supplied, delete the entry, and emit `reverted:<type>` with origin local;
when absent, return unchanged.  The source wraps the compensation call in no
try/catch, so a throwing compensation is recorded as invoked and as having
escaped to the caller, and the deletion and the emit that follow it in the
source are never reached. -/
def revertOptimisticUpdate (bc : Bool) (s : TrackerState) (id : String) :
    TrackerState :=
  match mapGet s.pending id with
  | none => s
  | some u =>
    match u.revert with
    | some CompBehavior.throws =>
      { s with compLog := s.compLog ++ [id], thrown := s.thrown ++ [id] }
    | some CompBehavior.ok =>
      { s with
          compLog := s.compLog ++ [id]
          pending := mapDelete s.pending id
          events := s.events ++
            emitEvent bc ("reverted:" ++ u.type) id u.data Source.localOrigin }
    | none =>
      { s with
          pending := mapDelete s.pending id
          events := s.events ++
            emitEvent bc ("reverted:" ++ u.type) id u.data Source.localOrigin }

/-- The body of the `setTimeout` callback scheduled by `addOptimisticUpdate`:
if the id is still pending, warn (a pure log, not modelled) and perform
`revertOptimisticUpdate(id)`; otherwise do nothing. -/
def fireExpiry (bc : Bool) (s : TrackerState) (id : String) : TrackerState :=
  if (mapGet s.pending id).isSome then revertOptimisticUpdate bc s id else s

/-- One externally triggered tracker transition: a call to one of the three
tracker operations, the firing of a scheduled expiry callback, or the
passage of time. -/
inductive TrackerOp where
  | add (id type : String) (data : Nat) (revertFn : Option CompBehavior)
  | confirm (id : String)
  | revert (id : String)
  | fire (id : String)
  | tick (dt : Nat)
  deriving DecidableEq, Repr

def stepOp (bc : Bool) (s : TrackerState) : TrackerOp → TrackerState
  | TrackerOp.add id type data revertFn =>
      addOptimisticUpdate bc s id type data revertFn
  | TrackerOp.confirm id => confirmOptimisticUpdate bc s id
  | TrackerOp.revert id => revertOptimisticUpdate bc s id
  | TrackerOp.fire id => fireExpiry bc s id
  | TrackerOp.tick dt => { s with now := s.now + dt }

def runOps (bc : Bool) (s : TrackerState) (ops : List TrackerOp) :
    TrackerState :=
  ops.foldl (stepOp bc) s

/-- `getPendingUpdates()`: the values of the pending map. -/
def getPendingUpdates (s : TrackerState) : List OptimisticUpdate :=
  s.pending.map (fun p => p.2)

/-- Whether an operation is an `addOptimisticUpdate` call for the given id. -/
def addsId : TrackerOp → String → Bool
  | TrackerOp.add i _ _ _, id => i == id
  | _, _ => false

end TrackerModel

namespace TrackerModel

theorem beq_false_of_ne {a b : String} (h : a ≠ b) : (a == b) = false := by
  simp [h]

theorem mapGet_nil (j : String) : mapGet [] j = none := rfl

theorem mapGet_cons (p : String × OptimisticUpdate)
    (rest : List (String × OptimisticUpdate)) (j : String) :
    mapGet (p :: rest) j = if p.1 == j then some p.2 else mapGet rest j := by
  cases h : p.1 == j <;> simp [mapGet, List.find?_cons, h]

theorem mapGet_mapSet_self (m : List (String × OptimisticUpdate))
    (k : String) (v : OptimisticUpdate) :
    mapGet (mapSet m k v) k = some v := by
  induction m with
  | nil => simp [mapSet, mapGet_cons]
  | cons p rest ih =>
    by_cases h : p.1 = k
    · simp [mapSet, h, mapGet_cons]
    · simp [mapSet, beq_false_of_ne h, mapGet_cons, ih, h]

theorem mapGet_mapSet_ne (m : List (String × OptimisticUpdate))
    (k : String) (v : OptimisticUpdate) (j : String) (hjk : j ≠ k) :
    mapGet (mapSet m k v) j = mapGet m j := by
  have hkj : (k == j) = false := beq_false_of_ne (Ne.symm hjk)
  induction m with
  | nil => simp [mapSet, mapGet_cons, hkj, mapGet_nil]
  | cons p rest ih =>
    by_cases h : p.1 = k
    · have hpj : (p.1 == j) = false := by rw [h]; exact hkj
      simp [mapSet, h, mapGet_cons, hkj, hpj]
    · simp [mapSet, beq_false_of_ne h, mapGet_cons, ih]

theorem mapGet_mapDelete_self (m : List (String × OptimisticUpdate))
    (k : String) : mapGet (mapDelete m k) k = none := by
  induction m with
  | nil => rfl
  | cons p rest ih =>
    by_cases h : p.1 = k
    · simpa [mapDelete, h] using ih
    · have hd : mapDelete (p :: rest) k = p :: mapDelete rest k := by
        simp [mapDelete, beq_false_of_ne h]
      rw [hd, mapGet_cons, beq_false_of_ne h]
      simpa using ih

theorem mapGet_mapDelete_ne (m : List (String × OptimisticUpdate))
    (k : String) (j : String) (hjk : j ≠ k) :
    mapGet (mapDelete m k) j = mapGet m j := by
  induction m with
  | nil => rfl
  | cons p rest ih =>
    by_cases h : p.1 = k
    · have hpj : (p.1 == j) = false := by
        rw [h]; exact beq_false_of_ne (Ne.symm hjk)
      have hd : mapDelete (p :: rest) k = mapDelete rest k := by
        simp [mapDelete, h]
      rw [hd, ih, mapGet_cons, hpj]
      simp
    · have hd : mapDelete (p :: rest) k = p :: mapDelete rest k := by
        simp [mapDelete, beq_false_of_ne h]
      rw [hd, mapGet_cons, mapGet_cons, ih]

theorem mem_keys_mapSet (m : List (String × OptimisticUpdate))
    (k : String) (v : OptimisticUpdate) (j : String) :
    j ∈ (mapSet m k v).map Prod.fst ↔ j ∈ m.map Prod.fst ∨ j = k := by
  induction m with
  | nil => simp [mapSet]
  | cons p rest ih =>
    by_cases h : p.1 = k
    · subst h
      have hs : mapSet (p :: rest) p.1 v = (p.1, v) :: rest := by
        simp [mapSet]
      rw [hs]
      simp only [List.map_cons, List.mem_cons]
      tauto
    · have hs : mapSet (p :: rest) k v = p :: mapSet rest k v := by
        simp [mapSet, beq_false_of_ne h]
      rw [hs]
      simp only [List.map_cons, List.mem_cons, ih]
      tauto

theorem nodup_keys_mapSet (m : List (String × OptimisticUpdate))
    (k : String) (v : OptimisticUpdate)
    (h : (m.map Prod.fst).Nodup) :
    ((mapSet m k v).map Prod.fst).Nodup := by
  induction m with
  | nil => simp [mapSet]
  | cons p rest ih =>
    rw [List.map_cons, List.nodup_cons] at h
    by_cases hp : p.1 = k
    · subst hp
      have hs : mapSet (p :: rest) p.1 v = (p.1, v) :: rest := by
        simp [mapSet]
      rw [hs, List.map_cons, List.nodup_cons]
      exact ⟨h.1, h.2⟩
    · have hs : mapSet (p :: rest) k v = p :: mapSet rest k v := by
        simp [mapSet, beq_false_of_ne hp]
      rw [hs, List.map_cons, List.nodup_cons]
      refine ⟨?_, ih h.2⟩
      rw [mem_keys_mapSet]
      rintro (hmem | rfl)
      · exact h.1 hmem
      · exact hp rfl

theorem confirm_absent (bc : Bool) (s : TrackerState) (id : String)
    (h : mapGet s.pending id = none) :
    confirmOptimisticUpdate bc s id = s := by
  simp [confirmOptimisticUpdate, h]

theorem revert_absent (bc : Bool) (s : TrackerState) (id : String)
    (h : mapGet s.pending id = none) :
    revertOptimisticUpdate bc s id = s := by
  simp [revertOptimisticUpdate, h]

theorem fire_absent (bc : Bool) (s : TrackerState) (id : String)
    (h : mapGet s.pending id = none) :
    fireExpiry bc s id = s := by
  simp [fireExpiry, h]

theorem count_append_other (l : List String) (i id : String) (h : i ≠ id) :
    (l ++ [i]).count id = l.count id := by
  simp [List.count_append, List.count_cons, List.count_nil, h]

theorem pres_step (bc : Bool) (s : TrackerState) (op : TrackerOp) (id : String)
    (hadd : addsId op id = false) (h : mapGet s.pending id = none) :
    mapGet (stepOp bc s op).pending id = none ∧
      (stepOp bc s op).compLog.count id = s.compLog.count id := by
  cases op with
  | add i t d c =>
    have hne : id ≠ i := by
      intro he
      simp [addsId, he] at hadd
    constructor
    · simpa [stepOp, addOptimisticUpdate, mapGet_mapSet_ne _ _ _ _ hne] using h
    · simp [stepOp, addOptimisticUpdate]
  | confirm i =>
    cases hm : mapGet s.pending i with
    | none =>
      refine ⟨?_, ?_⟩ <;> simp [stepOp, confirmOptimisticUpdate, hm, h]
    | some u =>
      have hne : id ≠ i := by
        intro he
        rw [he, hm] at h
        exact Option.noConfusion h
      constructor
      · simpa [stepOp, confirmOptimisticUpdate, hm,
          mapGet_mapDelete_ne _ _ _ hne] using h
      · simp [stepOp, confirmOptimisticUpdate, hm]
  | revert i =>
    cases hm : mapGet s.pending i with
    | none =>
      refine ⟨?_, ?_⟩ <;> simp [stepOp, revertOptimisticUpdate, hm, h]
    | some u =>
      have hne : id ≠ i := by
        intro he
        rw [he, hm] at h
        exact Option.noConfusion h
      have hcount : (s.compLog ++ [i]).count id = s.compLog.count id :=
        count_append_other _ _ _ (fun he => hne he.symm)
      cases hr : u.revert with
      | none =>
        constructor
        · simpa [stepOp, revertOptimisticUpdate, hm, hr,
            mapGet_mapDelete_ne _ _ _ hne] using h
        · simp [stepOp, revertOptimisticUpdate, hm, hr]
      | some cb =>
        cases cb with
        | ok =>
          constructor
          · simpa [stepOp, revertOptimisticUpdate, hm, hr,
              mapGet_mapDelete_ne _ _ _ hne] using h
          · simp [stepOp, revertOptimisticUpdate, hm, hr, hcount]
        | throws =>
          constructor
          · simpa [stepOp, revertOptimisticUpdate, hm, hr] using h
          · simp [stepOp, revertOptimisticUpdate, hm, hr, hcount]
  | fire i =>
    by_cases hi : i = id
    · subst hi
      refine ⟨?_, ?_⟩ <;> simp [stepOp, fireExpiry, h]
    · cases hm : mapGet s.pending i with
      | none =>
        refine ⟨?_, ?_⟩ <;> simp [stepOp, fireExpiry, hm, h]
      | some u =>
        have hne : id ≠ i := fun he => hi he.symm
        have hcount : (s.compLog ++ [i]).count id = s.compLog.count id :=
          count_append_other _ _ _ hi
        cases hr : u.revert with
        | none =>
          constructor
          · simpa [stepOp, fireExpiry, revertOptimisticUpdate, hm, hr,
              mapGet_mapDelete_ne _ _ _ hne] using h
          · simp [stepOp, fireExpiry, revertOptimisticUpdate, hm, hr]
        | some cb =>
          cases cb with
          | ok =>
            constructor
            · simpa [stepOp, fireExpiry, revertOptimisticUpdate, hm, hr,
                mapGet_mapDelete_ne _ _ _ hne] using h
            · simp [stepOp, fireExpiry, revertOptimisticUpdate, hm, hr, hcount]
          | throws =>
            constructor
            · simpa [stepOp, fireExpiry, revertOptimisticUpdate, hm, hr] using h
            · simp [stepOp, fireExpiry, revertOptimisticUpdate, hm, hr, hcount]
  | tick dt =>
    refine ⟨?_, ?_⟩ <;> simp [stepOp, h]

theorem pres_runOps (bc : Bool) (ops : List TrackerOp) (s : TrackerState)
    (id : String) (hadd : ∀ o ∈ ops, addsId o id = false)
    (h : mapGet s.pending id = none) :
    mapGet (runOps bc s ops).pending id = none ∧
      (runOps bc s ops).compLog.count id = s.compLog.count id := by
  induction ops generalizing s with
  | nil => exact ⟨h, rfl⟩
  | cons o rest ih =>
    have h1 := pres_step bc s o id (hadd o (List.mem_cons_self o rest)) h
    have h2 := ih (stepOp bc s o)
      (fun o' ho' => hadd o' (List.mem_cons_of_mem o ho')) h1.1
    exact ⟨h2.1, h2.2.trans h1.2⟩

end TrackerModel

namespace TrackerModel

/-- C2 (counterexample): calling `addOptimisticUpdate` a second time with an
id that is already tracked is not a no-op.  Starting from an empty tracker,
adding id `a` with payload 1 and then adding id `a` again with payload 2
replaces the stored payload, emits a second `optimistic:` event and schedules
a second expiry — refuting the claim that the entry set, stored payloads and
scheduled expiries are unchanged and that no event is emitted. -/
theorem c2_duplicate_add_counterexample :
    mapGet (runOps true ⟨[], [], [], [], [], 0⟩
        [TrackerOp.add "a" "k" 1 none, TrackerOp.add "a" "k" 2 none]).pending "a"
      = some ⟨"a", "k", 2, 0, none⟩
    ∧ (runOps true ⟨[], [], [], [], [], 0⟩
        [TrackerOp.add "a" "k" 1 none, TrackerOp.add "a" "k" 2 none]).events.length = 2
    ∧ (runOps true ⟨[], [], [], [], [], 0⟩
        [TrackerOp.add "a" "k" 1 none, TrackerOp.add "a" "k" 2 none]).timers.length = 2 :=
  ⟨rfl, rfl, rfl⟩

/-- C2 (amended): `addOptimisticUpdate` with an id that is already present is
not a no-op: it unconditionally stores the new entry (replacing the previous
registration for that id), emits another `optimistic:<kind>` event when
broadcasting is enabled, and schedules another expiry; because the pending
map is keyed by id, the tracker still never holds two entries with the same
id, and entries under other ids are untouched. -/
theorem c2_add_replaces_existing_entry (bc : Bool) (s : TrackerState)
    (id type : String) (data : Nat) (revertFn : Option CompBehavior)
    (h : (s.pending.map Prod.fst).Nodup) :
    mapGet (stepOp bc s (TrackerOp.add id type data revertFn)).pending id
        = some ⟨id, type, data, s.now, revertFn⟩
      ∧ ((stepOp bc s (TrackerOp.add id type data revertFn)).pending.map
          Prod.fst).Nodup
      ∧ (∀ j, j ≠ id →
          mapGet (stepOp bc s (TrackerOp.add id type data revertFn)).pending j
            = mapGet s.pending j)
      ∧ (stepOp bc s (TrackerOp.add id type data revertFn)).timers
          = s.timers ++ [(id, s.now + OPTIMISTIC_TIMEOUT_MS)]
      ∧ (stepOp bc s (TrackerOp.add id type data revertFn)).events
          = s.events ++
              emitEvent bc ("optimistic:" ++ type) id data Source.localOrigin := by
  refine ⟨?_, ?_, ?_, rfl, rfl⟩
  · simpa [stepOp, addOptimisticUpdate] using mapGet_mapSet_self s.pending id _
  · simpa [stepOp, addOptimisticUpdate] using nodup_keys_mapSet s.pending id _ h
  · intro j hj
    simpa [stepOp, addOptimisticUpdate] using mapGet_mapSet_ne s.pending id _ j hj

/-- Concrete tracker state used to witness the amended C2 statement. -/
def c2S : TrackerState :=
  ⟨[("a", ⟨"a", "k", 1, 0, none⟩)], [("a", 10000)], [], [], [], 5⟩

/-- C2 witness: the amended statement applied to a tracker already holding
id `a`, re-adding `a` with a new payload. -/
theorem c2_add_replaces_existing_entry_witness :
    (c2S.pending.map Prod.fst).Nodup
    ∧ (mapGet (stepOp true c2S (TrackerOp.add "a" "k2" 7 none)).pending "a"
          = some ⟨"a", "k2", 7, c2S.now, none⟩
        ∧ ((stepOp true c2S (TrackerOp.add "a" "k2" 7 none)).pending.map
            Prod.fst).Nodup
        ∧ (∀ j, j ≠ "a" →
            mapGet (stepOp true c2S (TrackerOp.add "a" "k2" 7 none)).pending j
              = mapGet c2S.pending j)
        ∧ (stepOp true c2S (TrackerOp.add "a" "k2" 7 none)).timers
            = c2S.timers ++ [("a", c2S.now + OPTIMISTIC_TIMEOUT_MS)]
        ∧ (stepOp true c2S (TrackerOp.add "a" "k2" 7 none)).events
            = c2S.events ++
                emitEvent true ("optimistic:" ++ "k2") "a" 7 Source.localOrigin) :=
  ⟨by decide, c2_add_replaces_existing_entry true c2S "a" "k2" 7 none (by decide)⟩

/-- C5 (counterexample): an entry whose compensating action throws is not
auto-reverted exactly once with later operations being no-ops.  The fired
expiry invokes the compensation (once), the exception escapes before the
entry is deleted, so the entry is still pending, and a later manual revert is
not a no-op: it invokes the compensation a second time. -/
theorem c5_timeout_once_counterexample :
    ((runOps true ⟨[("a", ⟨"a", "k", 1, 0, some CompBehavior.throws⟩)],
        [("a", 10000)], [], [], [], 10000⟩
        [TrackerOp.fire "a"]).compLog.count "a" = 1)
    ∧ ((mapGet (runOps true ⟨[("a", ⟨"a", "k", 1, 0, some CompBehavior.throws⟩)],
        [("a", 10000)], [], [], [], 10000⟩
        [TrackerOp.fire "a"]).pending "a").isSome = true)
    ∧ ((runOps true ⟨[("a", ⟨"a", "k", 1, 0, some CompBehavior.throws⟩)],
        [("a", 10000)], [], [], [], 10000⟩
        [TrackerOp.fire "a", TrackerOp.revert "a"]).compLog.count "a" = 2) := by
  refine ⟨?_, rfl, ?_⟩ <;> decide

/-- C5 (amended): provided its compensating action does not throw, an entry
still pending when its 10-second expiry fires is auto-reverted exactly once
(the compensation, when present, is invoked exactly once), and afterwards —
across any further operations that do not re-register the same id — the id
stays absent, the compensation is never invoked again, and a late
`confirmOptimisticUpdate`, `revertOptimisticUpdate` or fired expiry for that
id is a no-op: it returns the state unchanged and emits no event. -/
theorem c5_timeout_autorevert_amended (bc : Bool) (s : TrackerState)
    (id : String) (e : OptimisticUpdate)
    (hget : mapGet s.pending id = some e)
    (hc : e.revert ≠ some CompBehavior.throws) :
    ((fireExpiry bc s id).compLog.count id
        = s.compLog.count id + (if e.revert.isSome then 1 else 0))
      ∧ mapGet (fireExpiry bc s id).pending id = none
      ∧ ∀ ops : List TrackerOp, (∀ o ∈ ops, addsId o id = false) →
          (mapGet (runOps bc (fireExpiry bc s id) ops).pending id = none
            ∧ (runOps bc (fireExpiry bc s id) ops).compLog.count id
                = (fireExpiry bc s id).compLog.count id
            ∧ confirmOptimisticUpdate bc (runOps bc (fireExpiry bc s id) ops) id
                = runOps bc (fireExpiry bc s id) ops
            ∧ revertOptimisticUpdate bc (runOps bc (fireExpiry bc s id) ops) id
                = runOps bc (fireExpiry bc s id) ops
            ∧ fireExpiry bc (runOps bc (fireExpiry bc s id) ops) id
                = runOps bc (fireExpiry bc s id) ops) := by
  have hfire : fireExpiry bc s id = revertOptimisticUpdate bc s id := by
    simp [fireExpiry, hget]
  cases hr : e.revert with
  | none =>
    have h1 : (fireExpiry bc s id).compLog = s.compLog := by
      simp [hfire, revertOptimisticUpdate, hget, hr]
    have h2 : mapGet (fireExpiry bc s id).pending id = none := by
      simp [hfire, revertOptimisticUpdate, hget, hr, mapGet_mapDelete_self]
    refine ⟨by simp [h1, hr], h2, ?_⟩
    intro ops hops
    have h3 := pres_runOps bc ops (fireExpiry bc s id) id hops h2
    exact ⟨h3.1, h3.2, confirm_absent _ _ _ h3.1, revert_absent _ _ _ h3.1,
      fire_absent _ _ _ h3.1⟩
  | some cb =>
    cases cb with
    | throws => exact absurd hr hc
    | ok =>
      have h1 : (fireExpiry bc s id).compLog = s.compLog ++ [id] := by
        simp [hfire, revertOptimisticUpdate, hget, hr]
      have h2 : mapGet (fireExpiry bc s id).pending id = none := by
        simp [hfire, revertOptimisticUpdate, hget, hr, mapGet_mapDelete_self]
      refine ⟨?_, h2, ?_⟩
      · simp [h1, hr, List.count_append]
      · intro ops hops
        have h3 := pres_runOps bc ops (fireExpiry bc s id) id hops h2
        exact ⟨h3.1, h3.2, confirm_absent _ _ _ h3.1, revert_absent _ _ _ h3.1,
          fire_absent _ _ _ h3.1⟩

/-- Concrete pending entry and state used to witness the amended C5 statement. -/
def c5U : OptimisticUpdate := ⟨"a", "k", 1, 0, some CompBehavior.ok⟩

/-- Concrete tracker state used to witness the amended C5 statement. -/
def c5S : TrackerState := ⟨[("a", c5U)], [("a", 10000)], [], [], [], 10000⟩

/-- C5 witness: the amended statement applied to a pending entry with a
well-behaved compensation whose expiry fires at the 10-second mark. -/
theorem c5_timeout_autorevert_amended_witness :
    (mapGet c5S.pending "a" = some c5U
        ∧ c5U.revert ≠ some CompBehavior.throws)
    ∧ (((fireExpiry true c5S "a").compLog.count "a"
          = c5S.compLog.count "a" + (if c5U.revert.isSome then 1 else 0))
        ∧ mapGet (fireExpiry true c5S "a").pending "a" = none
        ∧ ∀ ops : List TrackerOp, (∀ o ∈ ops, addsId o "a" = false) →
            (mapGet (runOps true (fireExpiry true c5S "a") ops).pending "a" = none
              ∧ (runOps true (fireExpiry true c5S "a") ops).compLog.count "a"
                  = (fireExpiry true c5S "a").compLog.count "a"
              ∧ confirmOptimisticUpdate true
                    (runOps true (fireExpiry true c5S "a") ops) "a"
                  = runOps true (fireExpiry true c5S "a") ops
              ∧ revertOptimisticUpdate true
                    (runOps true (fireExpiry true c5S "a") ops) "a"
                  = runOps true (fireExpiry true c5S "a") ops
              ∧ fireExpiry true (runOps true (fireExpiry true c5S "a") ops) "a"
                  = runOps true (fireExpiry true c5S "a") ops)) :=
  ⟨⟨rfl, by decide⟩,
    c5_timeout_autorevert_amended true c5S "a" c5U rfl (by decide)⟩

/-- C6 (counterexample): reverting a present entry whose compensating action
throws lets the exception escape to the caller (the source wraps the call in
no try/catch), leaves the entry in the pending map, and emits no
`reverted:` event — refuting the claim that the error is contained, the
entry removed and the event still emitted. -/
theorem c6_compensate_throw_counterexample :
    ((revertOptimisticUpdate true
        ⟨[("b", ⟨"b", "k", 1, 0, some CompBehavior.throws⟩)], [], [], [], [], 0⟩
        "b").thrown = ["b"])
    ∧ (mapGet (revertOptimisticUpdate true
        ⟨[("b", ⟨"b", "k", 1, 0, some CompBehavior.throws⟩)], [], [], [], [], 0⟩
        "b").pending "b" = some ⟨"b", "k", 1, 0, some CompBehavior.throws⟩)
    ∧ ((revertOptimisticUpdate true
        ⟨[("b", ⟨"b", "k", 1, 0, some CompBehavior.throws⟩)], [], [], [], [], 0⟩
        "b").events = []) :=
  ⟨rfl, rfl, rfl⟩

/-- C6 (amended): when the compensating action of a present entry throws
during `revertOptimisticUpdate`, the compensation is invoked but the
exception propagates to the caller; the entry is not removed, no
`reverted:<kind>` event is emitted, and the scheduled expiries are
untouched — the tracker is left still holding the entry. -/
theorem c6_compensate_throw_amended (bc : Bool) (s : TrackerState)
    (id : String) (e : OptimisticUpdate)
    (hget : mapGet s.pending id = some e)
    (hthrow : e.revert = some CompBehavior.throws) :
    revertOptimisticUpdate bc s id
      = { s with compLog := s.compLog ++ [id], thrown := s.thrown ++ [id] } := by
  simp [revertOptimisticUpdate, hget, hthrow]

/-- Concrete tracker state used to witness the amended C6 statement. -/
def c6S : TrackerState :=
  ⟨[("b", ⟨"b", "k", 9, 0, some CompBehavior.throws⟩)], [("b", 10000)], [], [], [], 3⟩

/-- C6 witness: the amended statement applied to a pending entry whose
compensation throws. -/
theorem c6_compensate_throw_amended_witness :
    (mapGet c6S.pending "b" = some ⟨"b", "k", 9, 0, some CompBehavior.throws⟩
        ∧ (⟨"b", "k", 9, 0, some CompBehavior.throws⟩ : OptimisticUpdate).revert
            = some CompBehavior.throws)
    ∧ revertOptimisticUpdate true c6S "b"
        = { c6S with compLog := c6S.compLog ++ ["b"],
                     thrown := c6S.thrown ++ ["b"] } :=
  ⟨⟨rfl, rfl⟩,
    c6_compensate_throw_amended true c6S "b" _ rfl rfl⟩

theorem revert_broadcast_indep (s : TrackerState) (id : String) :
    (revertOptimisticUpdate false s id).pending
        = (revertOptimisticUpdate true s id).pending
      ∧ (revertOptimisticUpdate false s id).timers
        = (revertOptimisticUpdate true s id).timers
      ∧ (revertOptimisticUpdate false s id).compLog
        = (revertOptimisticUpdate true s id).compLog
      ∧ (revertOptimisticUpdate false s id).thrown
        = (revertOptimisticUpdate true s id).thrown
      ∧ (revertOptimisticUpdate false s id).now
        = (revertOptimisticUpdate true s id).now
      ∧ (revertOptimisticUpdate false s id).events = s.events := by
  cases hm : mapGet s.pending id with
  | none => simp [revertOptimisticUpdate, hm]
  | some u =>
    cases hr : u.revert with
    | none => simp [revertOptimisticUpdate, hm, hr, emitEvent]
    | some cb => cases cb <;> simp [revertOptimisticUpdate, hm, hr, emitEvent]

theorem stepOp_broadcast_indep (s : TrackerState) (op : TrackerOp) :
    (stepOp false s op).pending = (stepOp true s op).pending
      ∧ (stepOp false s op).timers = (stepOp true s op).timers
      ∧ (stepOp false s op).compLog = (stepOp true s op).compLog
      ∧ (stepOp false s op).thrown = (stepOp true s op).thrown
      ∧ (stepOp false s op).now = (stepOp true s op).now
      ∧ (stepOp false s op).events = s.events := by
  cases op with
  | add i t d c => simp [stepOp, addOptimisticUpdate, emitEvent]
  | confirm i =>
    cases hm : mapGet s.pending i <;>
      simp [stepOp, confirmOptimisticUpdate, hm, emitEvent]
  | revert i =>
    simpa [stepOp] using revert_broadcast_indep s i
  | fire i =>
    by_cases hi : (mapGet s.pending i).isSome = true
    · simpa [stepOp, fireExpiry, hi] using revert_broadcast_indep s i
    · simp [stepOp, fireExpiry, hi]
  | tick dt => simp [stepOp]

/-- C10: with `enableBroadcast = false`, `emit` returns before dispatching,
so no listener — exact-type or wildcard — is invoked and nothing is logged,
while every tracker operation (`addOptimisticUpdate`,
`confirmOptimisticUpdate`, `revertOptimisticUpdate`, a fired expiry, the
clock) changes the pending map, the scheduled expiries, the compensation
invocations, the escaped exceptions and the clock exactly as it does with
broadcasting enabled — only the emitted events are suppressed: the event log
stays as it was. -/
theorem c10_broadcast_disabled
    (reg : List (String × List BusModel.Listener)) (type : String)
    (payload now : Nat) (src : Source)
    (s : TrackerState) (op : TrackerOp) :
    (BusModel.busEmit false reg type payload now src).delivered = []
      ∧ (BusModel.busEmit false reg type payload now src).logged = []
      ∧ (stepOp false s op).pending = (stepOp true s op).pending
      ∧ (stepOp false s op).timers = (stepOp true s op).timers
      ∧ (stepOp false s op).compLog = (stepOp true s op).compLog
      ∧ (stepOp false s op).thrown = (stepOp true s op).thrown
      ∧ (stepOp false s op).now = (stepOp true s op).now
      ∧ (stepOp false s op).events = s.events := by
  have h := stepOp_broadcast_indep s op
  exact ⟨rfl, rfl, h.1, h.2.1, h.2.2.1, h.2.2.2.1, h.2.2.2.2.1, h.2.2.2.2.2⟩

end TrackerModel

namespace SyncModel

/-- A record of one of the three managed collections, as diffed by
`checkForChanges`: its identity is the `id` field, and `content` stands for
the full remaining structural content that the source compares via
`JSON.stringify`, so two records are deeply equal exactly when they are
equal here. -/
structure DataRecord where
  id : String
  content : String
  deriving DecidableEq, Repr

/-- A collection snapshot `{ engineers, projects, assignments }`, either the
freshly fetched server data or the retained `lastSyncDataRef` contents. -/
structure Snapshot where
  engineers : List DataRecord
  projects : List DataRecord
  assignments : List DataRecord
  deriving DecidableEq, Repr

/-- `newData.<coll>.filter(e => !oldData.<coll>.find(old => old.id === e.id))`. -/
def newRecords (newL oldL : List DataRecord) : List DataRecord :=
  newL.filter (fun e => !(oldL.any (fun o => o.id == e.id)))

/-- `oldData.<coll>.filter(e => !newData.<coll>.find(n => n.id === e.id))`. -/
def removedRecords (oldL newL : List DataRecord) : List DataRecord :=
  oldL.filter (fun e => !(newL.any (fun n => n.id == e.id)))

/-- Records present in both snapshots whose serialized content differs:
`old && JSON.stringify(old) !== JSON.stringify(e)`. -/
def updatedRecords (newL oldL : List DataRecord) : List DataRecord :=
  newL.filter (fun e =>
    match oldL.find? (fun o => o.id == e.id) with
    | some o => !(o == e)
    | none => false)

/-- Per-collection change counts, as carried by the
`external:changes-detected` payload under the keys
`engineers`, `projects`, `assignments`. -/
structure ChangeCounts where
  engineers : Nat
  projects : Nat
  assignments : Nat
  deriving DecidableEq, Repr

/-- A message emitted on the realtime bus by the diff step: either one
per-record event (e.g. `external:engineer:added` with the record), or the
aggregate `external:changes-detected` event with its three count groups. -/
inductive BusMessage where
  | perRecord (etype : String) (rid : String)
  | changesDetected (added removed updated : ChangeCounts)
  deriving DecidableEq, Repr

/-- `checkForChanges(newData, oldData)` of the BackgroundSyncContext source:
classifies each record of the three collections as added, removed or
updated, emits one `external:<entity>:<added|removed|updated>` event per
classified record (in the source's order: added engineers, projects,
assignments; then removed; then updated), and finally — only when at least
one of the nine classified lists is non-empty — one aggregate
`external:changes-detected` event carrying the per-collection counts.
`performSync` only calls this when a previous snapshot exists, matching the
`if (!oldData) return` guard of the source. -/
def checkForChanges (newData oldData : Snapshot) : List BusMessage :=
  let newEngineers := newRecords newData.engineers oldData.engineers
  let newProjects := newRecords newData.projects oldData.projects
  let newAssignments := newRecords newData.assignments oldData.assignments
  let removedEngineers := removedRecords oldData.engineers newData.engineers
  let removedProjects := removedRecords oldData.projects newData.projects
  let removedAssignments := removedRecords oldData.assignments newData.assignments
  let updatedEngineers := updatedRecords newData.engineers oldData.engineers
  let updatedProjects := updatedRecords newData.projects oldData.projects
  let updatedAssignments := updatedRecords newData.assignments oldData.assignments
  (newEngineers.map (fun r => BusMessage.perRecord "external:engineer:added" r.id)) ++
  (newProjects.map (fun r => BusMessage.perRecord "external:project:added" r.id)) ++
  (newAssignments.map (fun r => BusMessage.perRecord "external:assignment:added" r.id)) ++
  (removedEngineers.map (fun r => BusMessage.perRecord "external:engineer:removed" r.id)) ++
  (removedProjects.map (fun r => BusMessage.perRecord "external:project:removed" r.id)) ++
  (removedAssignments.map (fun r => BusMessage.perRecord "external:assignment:removed" r.id)) ++
  (updatedEngineers.map (fun r => BusMessage.perRecord "external:engineer:updated" r.id)) ++
  (updatedProjects.map (fun r => BusMessage.perRecord "external:project:updated" r.id)) ++
  (updatedAssignments.map (fun r => BusMessage.perRecord "external:assignment:updated" r.id)) ++
  (if newEngineers.length != 0 || newProjects.length != 0 ||
      newAssignments.length != 0 || removedEngineers.length != 0 ||
      removedProjects.length != 0 || removedAssignments.length != 0 ||
      updatedEngineers.length != 0 || updatedProjects.length != 0 ||
      updatedAssignments.length != 0
   then [BusMessage.changesDetected
          ⟨newEngineers.length, newProjects.length, newAssignments.length⟩
          ⟨removedEngineers.length, removedProjects.length, removedAssignments.length⟩
          ⟨updatedEngineers.length, updatedProjects.length, updatedAssignments.length⟩]
   else [])

/-- An event emitted on the realtime bus during `performSync`. -/
inductive SyncEvent where
  | syncStart
  | syncError (msg : String)
  | changeMsg (m : BusMessage)
  | conflictResolved (strategy : String) (serverData localData : Snapshot)
  | syncComplete (data : Snapshot)
  deriving DecidableEq, Repr

/-- `resolveConflicts(serverData, localData)` of the BackgroundSyncContext
source: emits `sync:conflict-resolved` with the strategy name
`server-wins`, the server data and the local data it was passed, and
returns the server data as the resolved data. -/
def resolveConflicts (serverData localData : Snapshot) : Snapshot × SyncEvent :=
  (serverData, SyncEvent.conflictResolved "server-wins" serverData localData)

/-- State owned by the reconciliation engine and the store it writes to:
the three collections of the application store and the retained last
fetched snapshot (`lastSyncDataRef`). -/
structure SyncState where
  store : Snapshot
  lastSyncData : Option Snapshot
  deriving DecidableEq, Repr

/-- `performSync()` of the BackgroundSyncContext source.  `sessionActive`
models the `app.currentUser && app.token` guard, `fetchResult` the outcome
of `fetchServerData()`, and `pendingUpdates` the list returned by
`realtime.getPendingUpdates()`.  On fetch failure the catch block emits
`sync:error` with the error message and nothing has been mutated.  On
success the diff events are emitted when a previous snapshot exists, then
conflicts are resolved (server wins) when any pending updates exist, the
resolved or server data is committed to the store, the snapshot is
retained, and `sync:complete` is emitted. -/
def performSync (sessionActive : Bool) (fetchResult : Except String Snapshot)
    (pendingUpdates : List TrackerModel.OptimisticUpdate) (s : SyncState) :
    SyncState × List SyncEvent :=
  if !sessionActive then (s, [])
  else
    match fetchResult with
    | Except.error msg => (s, [SyncEvent.syncStart, SyncEvent.syncError msg])
    | Except.ok serverData =>
      let currentData := s.store
      let changeEvents :=
        match s.lastSyncData with
        | some old => (checkForChanges serverData old).map SyncEvent.changeMsg
        | none => []
      if pendingUpdates.length > 0 then
        let resolved := resolveConflicts serverData currentData
        ({ store := resolved.1, lastSyncData := some serverData },
         [SyncEvent.syncStart] ++ changeEvents ++ [resolved.2] ++
           [SyncEvent.syncComplete serverData])
      else
        ({ store := serverData, lastSyncData := some serverData },
         [SyncEvent.syncStart] ++ changeEvents ++
           [SyncEvent.syncComplete serverData])

/-- Whether a bus message is the aggregate `external:changes-detected` event. -/
def isChangesDetected : BusMessage → Bool
  | BusMessage.changesDetected _ _ _ => true
  | _ => false

/-- Whether a bus message is a per-record event of the given type. -/
def isPerRecordOf (t : String) : BusMessage → Bool
  | BusMessage.perRecord et _ => et == t
  | _ => false

/-- Number of per-record events of the given type in a message list. -/
def countPerRecord (evs : List BusMessage) (t : String) : Nat :=
  evs.countP (isPerRecordOf t)

/-- Whether a sync event is the `sync:conflict-resolved` event. -/
def isConflictResolved : SyncEvent → Bool
  | SyncEvent.conflictResolved _ _ _ => true
  | _ => false

theorem countP_perRecord_map (l : List DataRecord) (et t : String) :
    (l.map (fun r => BusMessage.perRecord et r.id)).countP (isPerRecordOf t)
      = if et = t then l.length else 0 := by
  induction l with
  | nil => simp
  | cons r rest ih =>
    by_cases h : et = t <;>
      simp [List.countP_cons, isPerRecordOf, h, ih]

theorem countP_changes_map (l : List DataRecord) (et : String) :
    (l.map (fun r => BusMessage.perRecord et r.id)).countP isChangesDetected
      = 0 := by
  induction l with
  | nil => simp
  | cons r rest ih => simp [List.countP_cons, isChangesDetected, ih]

theorem filter_changes_map (l : List DataRecord) (et : String) :
    (l.map (fun r => BusMessage.perRecord et r.id)).filter isChangesDetected
      = [] := by
  induction l with
  | nil => simp
  | cons r rest ih => simp [List.filter_cons, isChangesDetected, ih]

end SyncModel

namespace SyncModel

theorem countPerRecord_agg_ite (c : Bool) (a r u : ChangeCounts) (t : String) :
    ((if c then [BusMessage.changesDetected a r u] else []).countP
      (isPerRecordOf t)) = 0 := by
  cases c <;> simp [isPerRecordOf]

theorem filter_agg_ite (c : Bool) (a r u : ChangeCounts) :
    ((if c then [BusMessage.changesDetected a r u] else []).filter
        isChangesDetected)
      = (if c then [BusMessage.changesDetected a r u] else []) := by
  cases c <;> simp [isChangesDetected]

/-- C3 (counterexample): for two snapshots differing only by one new record
in the engineers collection, the diff step emits its per-record event under
the type `external:engineer:added` (singular entity name) — the message list
contains zero events of the type `external:engineers:added` named by the
claim, refuting "exactly one `external:engineers:added` event". -/
theorem c3_plural_event_name_counterexample :
    checkForChanges ⟨[⟨"e1", "x"⟩, ⟨"e2", "y"⟩], [], []⟩ ⟨[⟨"e1", "x"⟩], [], []⟩
        = [BusMessage.perRecord "external:engineer:added" "e2",
           BusMessage.changesDetected ⟨1, 0, 0⟩ ⟨0, 0, 0⟩ ⟨0, 0, 0⟩]
      ∧ countPerRecord
          (checkForChanges ⟨[⟨"e1", "x"⟩, ⟨"e2", "y"⟩], [], []⟩
            ⟨[⟨"e1", "x"⟩], [], []⟩)
          "external:engineers:added" = 0 :=
  ⟨rfl, rfl⟩

/-- C3 (amended): the diff step emits one per-record event per classified
change under the singular entity names `external:engineer:added` etc., and
one aggregate `external:changes-detected` event whose per-collection counts
exactly match the number of per-record events of each kind, emitted exactly
when at least one change was classified; in particular, for two snapshots
differing only by one new engineer record it emits exactly one
`external:engineer:added` event and an aggregate with `added.engineers = 1`
and all other counts 0. -/
theorem c3_diff_events_amended (newD old : Snapshot) :
    countPerRecord (checkForChanges newD old) "external:engineer:added"
        = (newRecords newD.engineers old.engineers).length
      ∧ countPerRecord (checkForChanges newD old) "external:project:added"
        = (newRecords newD.projects old.projects).length
      ∧ countPerRecord (checkForChanges newD old) "external:assignment:added"
        = (newRecords newD.assignments old.assignments).length
      ∧ countPerRecord (checkForChanges newD old) "external:engineer:removed"
        = (removedRecords old.engineers newD.engineers).length
      ∧ countPerRecord (checkForChanges newD old) "external:project:removed"
        = (removedRecords old.projects newD.projects).length
      ∧ countPerRecord (checkForChanges newD old) "external:assignment:removed"
        = (removedRecords old.assignments newD.assignments).length
      ∧ countPerRecord (checkForChanges newD old) "external:engineer:updated"
        = (updatedRecords newD.engineers old.engineers).length
      ∧ countPerRecord (checkForChanges newD old) "external:project:updated"
        = (updatedRecords newD.projects old.projects).length
      ∧ countPerRecord (checkForChanges newD old) "external:assignment:updated"
        = (updatedRecords newD.assignments old.assignments).length
      ∧ (checkForChanges newD old).filter isChangesDetected
        = (if (newRecords newD.engineers old.engineers).length
              + (newRecords newD.projects old.projects).length
              + (newRecords newD.assignments old.assignments).length
              + (removedRecords old.engineers newD.engineers).length
              + (removedRecords old.projects newD.projects).length
              + (removedRecords old.assignments newD.assignments).length
              + (updatedRecords newD.engineers old.engineers).length
              + (updatedRecords newD.projects old.projects).length
              + (updatedRecords newD.assignments old.assignments).length = 0
           then []
           else [BusMessage.changesDetected
                  ⟨(newRecords newD.engineers old.engineers).length,
                   (newRecords newD.projects old.projects).length,
                   (newRecords newD.assignments old.assignments).length⟩
                  ⟨(removedRecords old.engineers newD.engineers).length,
                   (removedRecords old.projects newD.projects).length,
                   (removedRecords old.assignments newD.assignments).length⟩
                  ⟨(updatedRecords newD.engineers old.engineers).length,
                   (updatedRecords newD.projects old.projects).length,
                   (updatedRecords newD.assignments old.assignments).length⟩])
      ∧ checkForChanges ⟨[⟨"e1", "x"⟩, ⟨"e2", "y"⟩], [], []⟩
            ⟨[⟨"e1", "x"⟩], [], []⟩
          = [BusMessage.perRecord "external:engineer:added" "e2",
             BusMessage.changesDetected ⟨1, 0, 0⟩ ⟨0, 0, 0⟩ ⟨0, 0, 0⟩] := by
  refine ⟨?c1, ?c2, ?c3, ?c4, ?c5, ?c6, ?c7, ?c8, ?c9, ?cf, rfl⟩
  case cf =>
    simp only [checkForChanges, List.filter_append, filter_changes_map,
      filter_agg_ite, List.nil_append]
    by_cases hsum : (newRecords newD.engineers old.engineers).length
        + (newRecords newD.projects old.projects).length
        + (newRecords newD.assignments old.assignments).length
        + (removedRecords old.engineers newD.engineers).length
        + (removedRecords old.projects newD.projects).length
        + (removedRecords old.assignments newD.assignments).length
        + (updatedRecords newD.engineers old.engineers).length
        + (updatedRecords newD.projects old.projects).length
        + (updatedRecords newD.assignments old.assignments).length = 0
    · have h1 : (newRecords newD.engineers old.engineers).length = 0 := by omega
      have h2 : (newRecords newD.projects old.projects).length = 0 := by omega
      have h3 : (newRecords newD.assignments old.assignments).length = 0 := by
        omega
      have h4 : (removedRecords old.engineers newD.engineers).length = 0 := by
        omega
      have h5 : (removedRecords old.projects newD.projects).length = 0 := by
        omega
      have h6 : (removedRecords old.assignments newD.assignments).length = 0 := by
        omega
      have h7 : (updatedRecords newD.engineers old.engineers).length = 0 := by
        omega
      have h8 : (updatedRecords newD.projects old.projects).length = 0 := by
        omega
      have h9 : (updatedRecords newD.assignments old.assignments).length = 0 := by
        omega
      rw [if_pos hsum]
      simp [h1, h2, h3, h4, h5, h6, h7, h8, h9]
    · rw [if_neg hsum]
      have hcond : ((newRecords newD.engineers old.engineers).length != 0
          || (newRecords newD.projects old.projects).length != 0
          || (newRecords newD.assignments old.assignments).length != 0
          || (removedRecords old.engineers newD.engineers).length != 0
          || (removedRecords old.projects newD.projects).length != 0
          || (removedRecords old.assignments newD.assignments).length != 0
          || (updatedRecords newD.engineers old.engineers).length != 0
          || (updatedRecords newD.projects old.projects).length != 0
          || (updatedRecords newD.assignments old.assignments).length != 0)
          = true := by
        simp only [Bool.or_eq_true, bne_iff_ne, ne_eq]
        omega
      simp [hcond]
  all_goals
    simp only [checkForChanges, countPerRecord, List.countP_append,
      countP_perRecord_map, countP_changes_map, countPerRecord_agg_ite]
  all_goals simp

theorem filter_conflict_changeMsg (l : List BusMessage) :
    (l.map SyncEvent.changeMsg).filter isConflictResolved = [] := by
  induction l with
  | nil => simp
  | cons a r ih => simp [isConflictResolved, ih]

/-- C4 (counterexample): during a successful sync with pending optimistic
entries, the `sync:conflict-resolved` event carries as its local data the
store's current collections, not the pending entries reported by the
tracker: two runs with different non-empty pending lists emit the very same
event payload, which equals the store snapshot and is therefore not the
tracker's pending data. -/
theorem c4_conflict_payload_counterexample :
    (performSync true
        (Except.ok ⟨[⟨"S1", "srv"⟩], [], []⟩)
        [⟨"p1", "assignment:add", 1, 0, none⟩]
        ⟨⟨[⟨"L1", "loc"⟩], [], []⟩, none⟩).2
        = [SyncEvent.syncStart,
           SyncEvent.conflictResolved "server-wins"
             ⟨[⟨"S1", "srv"⟩], [], []⟩ ⟨[⟨"L1", "loc"⟩], [], []⟩,
           SyncEvent.syncComplete ⟨[⟨"S1", "srv"⟩], [], []⟩]
      ∧ (performSync true
          (Except.ok ⟨[⟨"S1", "srv"⟩], [], []⟩)
          [⟨"p2", "engineer:add", 2, 0, none⟩]
          ⟨⟨[⟨"L1", "loc"⟩], [], []⟩, none⟩).2
        = (performSync true
            (Except.ok ⟨[⟨"S1", "srv"⟩], [], []⟩)
            [⟨"p1", "assignment:add", 1, 0, none⟩]
            ⟨⟨[⟨"L1", "loc"⟩], [], []⟩, none⟩).2 :=
  ⟨rfl, rfl⟩

/-- C4 (amended): whenever `performSync` succeeds while at least one pending
optimistic entry exists, the server-wins strategy applies — the fetched
snapshot fully replaces the three local collections and becomes the
retained snapshot — and exactly one `sync:conflict-resolved` event is
emitted, carrying the strategy name `server-wins`, the server data, and the
store's current local collections (not the tracker's pending entries). -/
theorem c4_server_wins_amended (server : Snapshot) (st : SyncState)
    (pending : List TrackerModel.OptimisticUpdate)
    (h : 0 < pending.length) :
    (performSync true (Except.ok server) pending st).1.store = server
      ∧ (performSync true (Except.ok server) pending st).1.lastSyncData
          = some server
      ∧ ((performSync true (Except.ok server) pending st).2.filter
          isConflictResolved)
          = [SyncEvent.conflictResolved "server-wins" server st.store] := by
  cases hls : st.lastSyncData with
  | none =>
    refine ⟨?_, ?_, ?_⟩ <;>
      simp [performSync, resolveConflicts, h, hls, isConflictResolved]
  | some old =>
    refine ⟨?_, ?_, ?_⟩ <;>
      simp [performSync, resolveConflicts, h, hls, isConflictResolved,
        filter_conflict_changeMsg]

/-- C4 witness: the amended statement applied to a concrete server snapshot,
store state and a single pending entry. -/
theorem c4_server_wins_amended_witness :
    0 < ([⟨"p1", "assignment:add", 1, 0, none⟩]
          : List TrackerModel.OptimisticUpdate).length
    ∧ ((performSync true (Except.ok ⟨[⟨"S1", "srv"⟩], [], []⟩)
          [⟨"p1", "assignment:add", 1, 0, none⟩]
          ⟨⟨[⟨"L1", "loc"⟩], [], []⟩, none⟩).1.store
          = ⟨[⟨"S1", "srv"⟩], [], []⟩
        ∧ (performSync true (Except.ok ⟨[⟨"S1", "srv"⟩], [], []⟩)
            [⟨"p1", "assignment:add", 1, 0, none⟩]
            ⟨⟨[⟨"L1", "loc"⟩], [], []⟩, none⟩).1.lastSyncData
          = some ⟨[⟨"S1", "srv"⟩], [], []⟩
        ∧ ((performSync true (Except.ok ⟨[⟨"S1", "srv"⟩], [], []⟩)
            [⟨"p1", "assignment:add", 1, 0, none⟩]
            ⟨⟨[⟨"L1", "loc"⟩], [], []⟩, none⟩).2.filter isConflictResolved)
          = [SyncEvent.conflictResolved "server-wins"
              ⟨[⟨"S1", "srv"⟩], [], []⟩
              (⟨⟨[⟨"L1", "loc"⟩], [], []⟩, none⟩ : SyncState).store]) :=
  ⟨by decide,
    c4_server_wins_amended ⟨[⟨"S1", "srv"⟩], [], []⟩
      ⟨⟨[⟨"L1", "loc"⟩], [], []⟩, none⟩
      [⟨"p1", "assignment:add", 1, 0, none⟩] (by decide)⟩

/-- C7: when the fetch of the authoritative snapshot fails during
`performSync` with an active session (for any failing fetch, e.g. a
`forceSync` attempted while offline), the call emits `sync:start` followed
by a `sync:error` event carrying the error message and returns with the
state untouched: the store's three collections and the retained last-known
snapshot are exactly as they were before the call. -/
theorem c7_fetch_failure_no_mutation (msg : String)
    (pending : List TrackerModel.OptimisticUpdate) (st : SyncState) :
    performSync true (Except.error msg) pending st
      = (st, [SyncEvent.syncStart, SyncEvent.syncError msg]) := rfl

end SyncModel

namespace AppContextModel

/-- An assignment's `engineerId` field as declared in `src/src/types/index.ts`:
`string | PopulatedEngineer`, i.e. either a bare id string or a populated
object `{ _id, name, email }` carrying the foreign id. -/
inductive EngineerRef where
  | idStr (s : String)
  | populated (eid name email : String)
  deriving DecidableEq, Repr

/-- The fields of an Assignment that `getEngineerWorkload` reads. -/
structure Assignment where
  id : String
  engineerId : EngineerRef
  allocationPercentage : Nat
  deriving DecidableEq, Repr

/-- JS strict equality `assignment.engineerId === engineerId` as used by the
source: a string compares equal to the query exactly when the characters
match, while an object is never strictly equal to a string. -/
def strictEqEngineerId (r : EngineerRef) (engineerId : String) : Bool :=
  match r with
  | EngineerRef.idStr s => s == engineerId
  | EngineerRef.populated _ _ _ => false

/-- `getEngineerWorkload(engineerId)` of the AppContext source:
`state.assignments.filter(a => a.engineerId === engineerId)
  .reduce((total, a) => total + a.allocationPercentage, 0)`. -/
def getEngineerWorkload (assignments : List Assignment)
    (engineerId : String) : Nat :=
  (assignments.filter (fun a => strictEqEngineerId a.engineerId engineerId)).foldl
    (fun total a => total + a.allocationPercentage) 0

/-- Modelled from the spec: a reference resolves to an engineer when it is
that engineer's bare id string or a populated object whose foreign id is
that engineer's id. -/
def refResolvesTo (r : EngineerRef) (engineerId : String) : Bool :=
  match r with
  | EngineerRef.idStr s => s == engineerId
  | EngineerRef.populated eid _ _ => eid == engineerId

/-- Modelled from the spec: derived workload of engineer E as the sum of
`allocationPercentage` over all assignments whose `engineerId` resolves to
E, including references in denormalized (object) form. -/
def specEngineerWorkload (assignments : List Assignment)
    (engineerId : String) : Nat :=
  (assignments.filter (fun a => refResolvesTo a.engineerId engineerId)).foldl
    (fun total a => total + a.allocationPercentage) 0

/-- C1: `getEngineerWorkload` compares the possibly-populated `engineerId`
to the queried id with JS strict equality, so an assignment whose reference
arrived in denormalized (object) form is never counted: for a single
assignment of 60% referencing engineer `e1` through a populated object, the
source computes workload 0 while the claimed derived workload is 60.  The
second and third conjuncts show the same assignment is counted once the
reference is a bare id string. -/
theorem c1_workload_populated_ref_bug :
    getEngineerWorkload
        [⟨"a1", EngineerRef.populated "e1" "Alice" "alice@example.com", 60⟩]
        "e1" = 0
      ∧ specEngineerWorkload
          [⟨"a1", EngineerRef.populated "e1" "Alice" "alice@example.com", 60⟩]
          "e1" = 60
      ∧ getEngineerWorkload [⟨"a1", EngineerRef.idStr "e1", 60⟩] "e1" = 60
      ∧ specEngineerWorkload [⟨"a1", EngineerRef.idStr "e1", 60⟩] "e1" = 60 :=
  ⟨rfl, rfl, rfl, rfl⟩

/-- A record of one store collection as touched by the optimistic-add flows:
identity plus the rest of its content. -/
structure StoreRecord where
  id : String
  content : String
  deriving DecidableEq, Repr

/-- The local half of `addEngineer` in the AppContext source: dispatch
`ADD_ENGINEER` (append the temporary record) and register a compensation
that dispatches `SET_ENGINEERS` with `state.engineers.filter(e => e.id !==
tempId)` — where `state.engineers` is the collection captured when the flow
ran, not the collection at revert time.  Returns the updated collection and
the compensation as a function of the collection at revert time. -/
def addEngineerLocal (engineers : List StoreRecord) (tempId content : String) :
    List StoreRecord × (List StoreRecord → List StoreRecord) :=
  (engineers ++ [⟨tempId, content⟩],
   fun _currentAtRevert => engineers.filter (fun e => !(e.id == tempId)))

/-- The local half of `addProject`: same shape as `addEngineer`, registering
a compensation that dispatches `SET_PROJECTS` with the captured
`state.projects.filter(p => p.id !== tempId)`. -/
def addProjectLocal (projects : List StoreRecord) (tempId content : String) :
    List StoreRecord × (List StoreRecord → List StoreRecord) :=
  (projects ++ [⟨tempId, content⟩],
   fun _currentAtRevert => projects.filter (fun p => !(p.id == tempId)))

/-- The local half of `addAssignment`: dispatch `ADD_ASSIGNMENT` (append the
temporary record) and register a compensation that dispatches
`REMOVE_ASSIGNMENT` with the temp id, i.e. filters the collection at revert
time by id. -/
def addAssignmentLocal (assignments : List StoreRecord)
    (tempId content : String) :
    List StoreRecord × (List StoreRecord → List StoreRecord) :=
  (assignments ++ [⟨tempId, content⟩],
   fun currentAtRevert => currentAtRevert.filter (fun a => !(a.id == tempId)))

/-- C8 (counterexample): the compensation registered by an optimistic
engineer add does not leave other records present at revert time unchanged.
Registering the add on an empty collection and then receiving an external
record `e2` before the revert, the compensation resets the collection to the
captured (empty) list: `e2` is present at revert time but absent from the
compensated collection. -/
theorem c8_stale_compensation_counterexample :
    (⟨"e2", "ext"⟩ : StoreRecord)
        ∈ (addEngineerLocal [] "temp-1" "eng").1 ++ [⟨"e2", "ext"⟩]
      ∧ (addEngineerLocal [] "temp-1" "eng").2
          ((addEngineerLocal [] "temp-1" "eng").1 ++ [⟨"e2", "ext"⟩]) = []
      ∧ ¬ ((⟨"e2", "ext"⟩ : StoreRecord)
          ∈ (addEngineerLocal [] "temp-1" "eng").2
              ((addEngineerLocal [] "temp-1" "eng").1 ++ [⟨"e2", "ext"⟩])) := by
  refine ⟨?_, rfl, ?_⟩ <;> decide

/-- C8 (amended): only the assignment flow's compensation removes exactly
the temporary record from the collection as it stands at revert time,
leaving every other record in place; the engineer and project flows'
compensations ignore the collection at revert time entirely and reset it to
the registration-time capture (minus the temp id), so records added or
changed after registration are discarded by the revert. -/
theorem c8_compensation_amended (tempId content : String)
    (current captured : List StoreRecord) :
    ((addAssignmentLocal captured tempId content).2 current
        = current.filter (fun a => !(a.id == tempId)))
      ∧ (∀ r : StoreRecord,
          r ∈ (addAssignmentLocal captured tempId content).2 current
            ↔ (r ∈ current ∧ r.id ≠ tempId))
      ∧ (∀ other : List StoreRecord,
          (addEngineerLocal captured tempId content).2 current
            = (addEngineerLocal captured tempId content).2 other)
      ∧ ((addEngineerLocal captured tempId content).2 current
          = captured.filter (fun e => !(e.id == tempId)))
      ∧ ((addProjectLocal captured tempId content).2 current
          = captured.filter (fun p => !(p.id == tempId))) := by
  refine ⟨rfl, ?_, fun other => rfl, rfl, rfl⟩
  intro r
  simp [addAssignmentLocal, List.mem_filter]

end AppContextModel
